import Mathlib

/-!
Verification of the resilient multi-tenant data-access layer of the Backlify
repository (the `SupabaseService` class: the query facade `query`, the
in-memory fallback store `_queryInMemory`, and the self-healing retry logic).

The JavaScript source is shallowly embedded below.  JavaScript values that
occur in the data path (strings, integers, booleans, `undefined`, `NaN`) are
modelled by `Value`; JavaScript objects used as records/filters are modelled
as association lists with first-key-wins lookup, which matches unique-key
object semantics.  The external Supabase/PostgREST backend is not part of the
repository; it is modelled from the spec (section 4.2 and the error
taxonomy) as a schema-checked table store, clearly marked below.
-/

namespace Backlify

/-- JavaScript scalar values appearing in the data path of the service.
`vundefined` models `undefined` (a missing property), `vnan` models `NaN`. -/
inductive Value where
  | vundefined : Value
  | vnan : Value
  | vint : Int → Value
  | vstr : String → Value
  | vbool : Bool → Value
deriving DecidableEq, Repr

/-- Digits-only parse of a character list (no sign), `none` when empty or a
non-digit occurs; used to model JavaScript numeric string coercion. -/
def digitsVal? (l : List Char) : Option Nat :=
  if l = [] then none
  else if l.all (fun c => c.isDigit) then
    some (l.foldl (fun a c => a * 10 + (c.toNat - 48)) 0)
  else none

/-- JavaScript `Number(s)` restricted to integer literals: `""` coerces to 0,
`"123"`/`"-123"` parse, anything else is `NaN` (`none`). -/
def strToInt? (s : String) : Option Int :=
  if s = "" then some 0
  else match s.data with
  | '-' :: rest => (digitsVal? rest).map (fun n => -(n : Int))
  | l => (digitsVal? l).map (fun n => (n : Int))

/-- JavaScript `ToNumber` on our value type; `none` models `NaN`. -/
def toNum? : Value → Option Int
  | .vundefined => none
  | .vnan => none
  | .vint n => some n
  | .vstr s => strToInt? s
  | .vbool b => some (if b then 1 else 0)

/-- JavaScript truthiness of a value (`undefined`, `NaN`, `0`, `""`, `false`
are falsy). -/
def truthy : Value → Bool
  | .vundefined => false
  | .vnan => false
  | .vint n => n != 0
  | .vstr s => s != ""
  | .vbool b => b

/-- JavaScript loose equality `==` on our value type: string/string compares
strings, `undefined` only equals `undefined`, otherwise both sides are
coerced to numbers (`NaN` comparisons are false). -/
def jsEq : Value → Value → Bool
  | .vundefined, .vundefined => true
  | .vundefined, _ => false
  | _, .vundefined => false
  | .vstr a, .vstr b => a == b
  | a, b =>
    match toNum? a, toNum? b with
    | some x, some y => x == y
    | _, _ => false

/-- JavaScript `<` on our value type: string/string compares lexicographically,
otherwise numeric coercion; comparisons involving `NaN` are false. -/
def jsLt : Value → Value → Bool
  | .vstr a, .vstr b => decide (a < b)
  | a, b =>
    match toNum? a, toNum? b with
    | some x, some y => decide (x < y)
    | _, _ => false

/-- A JavaScript object used as a record/filter: ordered association list of
properties (keys are unique in objects built by the service). -/
abbrev Rcd := List (String × Value)

/-- Property read `obj[k]`: `undefined` when absent. -/
def getF (r : Rcd) (k : String) : Value :=
  match List.lookup k r with
  | some v => v
  | none => .vundefined

/-- Property write `obj[k] = v`: overwrite in place when the key exists,
append otherwise (JavaScript property-order semantics). -/
def setAssoc {α : Type} (l : List (String × α)) (k : String) (v : α) :
    List (String × α) :=
  if (List.lookup k l).isSome then
    l.map (fun kv => if kv.1 = k then (k, v) else kv)
  else l ++ [(k, v)]

/-- Property write on a record. -/
def setField (r : Rcd) (k : String) (v : Value) : Rcd :=
  setAssoc r k v

/-- JavaScript `delete obj[k]`. -/
def removeKey (r : Rcd) (k : String) : Rcd :=
  r.filter (fun kv => kv.1 != k)

/-- JavaScript spread merge `{...item, ...d}`: item's keys keep their
positions with values overridden by `d`, then `d`'s new keys are appended. -/
def spread2 (item d : Rcd) : Rcd :=
  item.map (fun kv =>
    match List.lookup kv.1 d with
    | some v => (kv.1, v)
    | none => kv)
  ++ d.filter (fun kv => (List.lookup kv.1 item).isNone)

/-- Embeds `Object.entries(where).every(([key, value]) => item[key] == value)`
(part_000 line 723). -/
def matchesWhere (w : Rcd) (item : Rcd) : Bool :=
  w.all (fun kv => jsEq (getF item kv.1) kv.2)

/-- Embeds `a || b` on JavaScript values (first truthy operand). -/
def jsOr (a b : Value) : Value :=
  if truthy a then a else b

/-- Is the value a string (`typeof x === 'string'`)? -/
def isStr : Value → Bool
  | .vstr _ => true
  | _ => false

/-- Insert one element into an already-sorted tail: `x` goes before the first
element `y` with `keep x y`. -/
def insSorted {α : Type} (keep : α → α → Bool) (x : α) : List α → List α
  | [] => [x]
  | y :: ys => if keep x y then x :: y :: ys else y :: insSorted keep x ys

/-- Stable sort (insertion sort).  `Array.prototype.sort(cmp)` is modelled as
a stable sort in which an earlier element `a` stays before a later element
`b` exactly when `keep a b`, i.e. when `cmp(a,b) < 0`. -/
def stableSort {α : Type} (keep : α → α → Bool) : List α → List α
  | [] => []
  | x :: xs => insSorted keep x (stableSort keep xs)

/-- The comparator of `_queryInMemory`'s order-by (part_000 lines 730-736):
ascending uses `a[col] > b[col] ? 1 : -1`, anything else (descending) uses
`a[col] < b[col] ? 1 : -1`.  `keep x y` is `cmp(x,y) < 0`; JavaScript `a > b`
is `b < a`. -/
def cmpKeeps (dir : String) (x y : Value) : Bool :=
  if dir = "asc" then !(jsLt y x) else !(jsLt x y)

/-- Sort a record list by one column in the given direction, as the fallback
store's order-by does. -/
def sortByColumn (col dir : String) (rs : List Rcd) : List Rcd :=
  stableSort (fun a b => cmpKeeps dir (getF a col) (getF b col)) rs

/-- Embeds `results.slice(0, n)` with a possibly negative `n` (JavaScript `slice`
counts a negative end from the end of the array). -/
def jsSliceTo {α : Type} (l : List α) (n : Int) : List α :=
  if 0 ≤ n then l.take n.toNat else l.take (l.length - n.natAbs)

/-- All-numeric coercion of a value list; `none` as soon as one value is not
numeric (the `NaN`-poisoning of `Math.max`). -/
def numsOf? : List Value → Option (List Int)
  | [] => some []
  | v :: vs =>
    match toNum? v, numsOf? vs with
    | some n, some ns => some (n :: ns)
    | _, _ => none

/-- Embeds `Math.max(...l)` on a non-empty list, `none` when empty or any element
coerces to `NaN`. -/
def idsMax? (l : List Value) : Option Int :=
  match numsOf? l with
  | some (n :: ns) => some (ns.foldl max n)
  | _ => none

/-- The id auto-allocation of the tenant branch of `_queryInMemory`'s insert
(part_000 line 761): `records.length > 0 ? Math.max(...records.map(r => r.id)) + 1 : 1`. -/
def autoId (records : List Rcd) : Value :=
  if records.length > 0 then
    match idsMax? (records.map (fun r => getF r "id")) with
    | some m => .vint (m + 1)
    | none => .vnan
  else .vint 1

/-- One table of the in-memory fallback store: the `{ columns, records }`
object (`columns` may be absent, e.g. for tables lazily created by insert;
that is modelled as the empty list). -/
structure TableData where
  columns : List Rcd := []
  records : List Rcd := []
deriving DecidableEq, Repr

/-- The `inMemoryDb` object.  `globals` models the dynamic properties of
`inMemoryDb` itself (initially `projects` and `deployments`, with further
table keys added lazily by global inserts); `tables` models the
`inMemoryDb.tables` registry of per-tenant schemas.  The embedding keeps the
two apart, so a user table literally named `"tables"` (which in JavaScript
would collide with the registry property) is outside the model; theorems that
quantify over global table names assume `table ≠ "tables"`. -/
structure InMemoryDb where
  globals : List (String × List Rcd) := [("projects", []), ("deployments", [])]
  tables : List (String × List (String × TableData)) := []
deriving DecidableEq, Repr

/-- Mutable state of the service: the fallback store plus the `idCounters`
used by the global insert branch. -/
structure ServiceState where
  db : InMemoryDb
  counters : List (String × Int)
deriving DecidableEq, Repr

/-- The state built by the `SupabaseService` constructor. -/
def initState : ServiceState :=
  { db := { globals := [("projects", []), ("deployments", [])], tables := [] },
    counters := [("projects", 1), ("deployments", 1)] }

/-- The query-options object passed to `query`/`_queryInMemory`:
`{ method, where, data, limit, orderBy, offset, projectId }`. -/
structure QueryArg where
  method : String := "select"
  whereq : Rcd := []
  data : Rcd := []
  limit : Option Int := none
  orderBy : Option (String × String) := none
  offset : Option Int := none
  projectId : Option String := none
deriving DecidableEq, Repr

/-- Embeds `projectId && !['projects', 'deployments'].includes(table)`
(part_000 line 705). -/
def useSchemaB (projectId : Option String) (table : String) : Bool :=
  (match projectId with
   | some p => p != ""
   | none => false)
  && !(table == "projects" || table == "deployments")

/-- Embeds `inMemoryDb.tables[schemaName] && inMemoryDb.tables[schemaName][table]`. -/
def tenantTable? (st : ServiceState) (schemaName table : String) :
    Option TableData :=
  match List.lookup schemaName st.db.tables with
  | some ts => List.lookup table ts
  | none => none

/-- The record list `_queryInMemory`'s select starts from (part_000 lines
712-718): the tenant partition when `useSchema`, the global
`inMemoryDb[table] || []` otherwise. -/
def fallbackRecords (st : ServiceState) (table : String)
    (projectId : Option String) : List Rcd :=
  if useSchemaB projectId table then
    match tenantTable? st ("project_" ++ projectId.getD "") table with
    | some td => td.records
    | none => []
  else
    match List.lookup table st.db.globals with
    | some rs => rs
    | none => []

/-- Embeds `if (limit)` / `if (offset)`: a number is truthy when nonzero. -/
def optTruthy (o : Option Int) : Bool :=
  match o with
  | some n => n != 0
  | none => false

/-- The schema-name computation of `_queryInMemory` (part_000 line 706). -/
def schemaNameOf (q : QueryArg) (table : String) : String :=
  if useSchemaB q.projectId table then "project_" ++ q.projectId.getD "" else "public"

/-- The `case 'select'` branch of `_queryInMemory` (part_000 lines 710-744):
filter by loose-equality `where`, sort by the single order-by entry, then
`slice(0, limit)` when `limit` is truthy and fewer records would remain.
`offset` is never read by this branch. -/
def qimSelect (table : String) (q : QueryArg) (st : ServiceState) :
    Except String (List Rcd) × ServiceState :=
  let results := fallbackRecords st table q.projectId
  let results := if q.whereq.isEmpty then results
    else results.filter (fun item => matchesWhere q.whereq item)
  let results :=
    match q.orderBy with
    | some (col, dir) => sortByColumn col dir results
    | none => results
  let results :=
    match q.limit with
    | some n => if n != 0 && (results.length : Int) > n then jsSliceTo results n else results
    | none => results
  (.ok results, st)

/-- The `case 'insert'` branch of `_queryInMemory` (part_000 lines 746-780).
The two `if (!...)` partition-creation steps of the source are collapsed
with the subsequent read into `getD` defaults, which has the same net effect
on the store. -/
def qimInsert (table : String) (q : QueryArg) (st : ServiceState) :
    Except String (List Rcd) × ServiceState :=
  let schemaName := schemaNameOf q table
  if useSchemaB q.projectId table then
    let ts := (List.lookup schemaName st.db.tables).getD []
    let td := (List.lookup table ts).getD {}
    let newItem := q.data
    let newItem :=
      if truthy (getF newItem "id") then newItem
      else setField newItem "id" (autoId td.records)
    let td2 := { td with records := td.records ++ [newItem] }
    let st2 := { st with db := { st.db with
      tables := setAssoc st.db.tables schemaName (setAssoc ts table td2) } }
    (.ok [newItem], st2)
  else
    let globals := if (List.lookup table st.db.globals).isSome then st.db.globals
      else st.db.globals ++ [(table, [])]
    let newItem := q.data
    if truthy (getF newItem "id") then
      let st2 := { st with db := { st.db with
        globals := setAssoc globals table
          (((List.lookup table globals).getD []) ++ [newItem]) } }
      (.ok [newItem], st2)
    else
      let c :=
        match List.lookup table st.counters with
        | some n => if n != 0 then n else 1
        | none => 1
      let newItem := setField newItem "id" (.vint c)
      let st2 :=
        { db := { st.db with
            globals := setAssoc globals table
              (((List.lookup table globals).getD []) ++ [newItem]) },
          counters := setAssoc st.counters table (c + 1) }
      (.ok [newItem], st2)

/-- The `case 'update'` branch of `_queryInMemory` (part_000 lines 782-832):
merge-update every record matching the filter (every record when the filter
is empty), returning the updated records. -/
def qimUpdate (table : String) (q : QueryArg) (st : ServiceState) :
    Except String (List Rcd) × ServiceState :=
  let schemaName := schemaNameOf q table
  let should := fun item => q.whereq.isEmpty || matchesWhere q.whereq item
  if useSchemaB q.projectId table then
    match tenantTable? st schemaName table with
    | none => (.ok [], st)
    | some td =>
      let ts := (List.lookup schemaName st.db.tables).getD []
      let updatedItems := (td.records.filter should).map (fun item => spread2 item q.data)
      let newRecords := td.records.map (fun item => if should item then spread2 item q.data else item)
      let td2 := { td with records := newRecords }
      let st2 := { st with db := { st.db with
        tables := setAssoc st.db.tables schemaName (setAssoc ts table td2) } }
      (.ok updatedItems, st2)
  else
    match List.lookup table st.db.globals with
    | none => (.ok [], st)
    | some rs =>
      let updatedItems := (rs.filter should).map (fun item => spread2 item q.data)
      let st2 := { st with db := { st.db with
        globals := setAssoc st.db.globals table
          (rs.map (fun item => if should item then spread2 item q.data else item)) } }
      (.ok updatedItems, st2)

/-- The `case 'delete'` branch of `_queryInMemory` (part_000 lines 834-879):
remove and return the records matching the filter; an empty filter matches
nothing. -/
def qimDelete (table : String) (q : QueryArg) (st : ServiceState) :
    Except String (List Rcd) × ServiceState :=
  let schemaName := schemaNameOf q table
  let hit := fun item => !q.whereq.isEmpty && matchesWhere q.whereq item
  if useSchemaB q.projectId table then
    match tenantTable? st schemaName table with
    | none => (.ok [], st)
    | some td =>
      let ts := (List.lookup schemaName st.db.tables).getD []
      let deletedItems := td.records.filter hit
      let td2 := { td with records := td.records.filter (fun item => !hit item) }
      let st2 := { st with db := { st.db with
        tables := setAssoc st.db.tables schemaName (setAssoc ts table td2) } }
      (.ok deletedItems, st2)
  else
    match List.lookup table st.db.globals with
    | none => (.ok [], st)
    | some rs =>
      let deletedItems := rs.filter hit
      let st2 := { st with db := { st.db with
        globals := setAssoc st.db.globals table (rs.filter (fun item => !hit item)) } }
      (.ok deletedItems, st2)

/-- Embeds `method.toLowerCase()` (character-wise ASCII lowercasing). -/
def jsToLower (s : String) : String :=
  String.mk (s.data.map Char.toLower)

/-- Shallow embedding of `_queryInMemory` (part_000 lines 701-884).  The
dispatch is on `method.toLowerCase()`; the unsupported-method `throw` is the
`Except.error` branch, whose message interpolates the original `method`. -/
def queryInMemory (table : String) (q : QueryArg) (st : ServiceState) :
    Except String (List Rcd) × ServiceState :=
  let m := jsToLower q.method
  if m = "select" then qimSelect table q st
  else if m = "insert" then qimInsert table q st
  else if m = "update" then qimUpdate table q st
  else if m = "delete" then qimDelete table q st
  else (.error ("Unsupported query method: " ++ q.method), st)

/-- Modelled from the spec: errors of the remote backend as recognised by the
facade's healing code.  `pgrst204 c` stands for a `PGRST204` error whose
message is `Could not find the 'c' column`; `p22P02` for a `22P02`
`invalid input syntax for type integer` error; `notFound` for an absent
table/namespace. -/
inductive RemoteError where
  | pgrst204 (col : String)
  | p22P02 : RemoteError
  | notFound : RemoteError
deriving DecidableEq, Repr

/-- Modelled from the spec: one table of the PostgREST-compatible remote
backend — its known columns, the subset declared integer-typed, and its
rows. -/
structure RemoteTable where
  cols : List String
  intCols : List String := []
  rows : List Rcd := []
deriving DecidableEq, Repr

/-- Modelled from the spec: the remote backend. -/
structure RemoteDb where
  tables : List (String × RemoteTable)
deriving DecidableEq, Repr

/-- The first payload key absent from the remote schema (the column named by
a `PGRST204` error). -/
def firstUnknownCol (t : RemoteTable) (d : Rcd) : Option String :=
  (d.find? (fun kv => !t.cols.contains kv.1)).map (fun kv => kv.1)

/-- Does the payload put a non-numeric string into an integer-typed column
(the `22P02` condition)? -/
def intViolation (t : RemoteTable) (d : Rcd) : Bool :=
  d.any (fun kv => t.intCols.contains kv.1 &&
    (match kv.2 with
     | .vstr s => (strToInt? s).isNone
     | _ => false))

/-- Modelled from the spec: remote insert — submits the payload against the
table's schema, returns the created row back; unknown column and integer
type mismatch produce the corresponding structured errors. -/
def remoteInsert (rdb : RemoteDb) (table : String) (d : Rcd) :
    Except RemoteError (List Rcd × RemoteDb) :=
  match List.lookup table rdb.tables with
  | none => .error .notFound
  | some t =>
    match firstUnknownCol t d with
    | some c => .error (.pgrst204 c)
    | none =>
      if intViolation t d then .error .p22P02
      else .ok ([d],
        { tables := setAssoc rdb.tables table { t with rows := t.rows ++ [d] } })

/-- Modelled from the spec: remote select with equality `match` filter,
order-by, limit, and range (the half-open offset window). -/
def remoteSelect (rdb : RemoteDb) (table : String) (w : Rcd)
    (limit : Option Int) (orderBy : Option (String × String))
    (offset : Option Int) : Except RemoteError (List Rcd) :=
  match List.lookup table rdb.tables with
  | none => .error .notFound
  | some t =>
    let rs := if w.isEmpty then t.rows else t.rows.filter (fun r => matchesWhere w r)
    let rs :=
      match orderBy with
      | some (col, dir) => sortByColumn col dir rs
      | none => rs
    let rs :=
      if optTruthy offset then (rs.drop ((offset.getD 0).toNat)).take ((limit.getD 10).toNat)
      else if optTruthy limit then rs.take ((limit.getD 0).toNat)
      else rs
    .ok rs

/-- Modelled from the spec: remote update — merge payload applied to the rows
matching the equality filter, affected rows returned; matching zero rows is
not an error. -/
def remoteUpdate (rdb : RemoteDb) (table : String) (filt d : Rcd) :
    Except RemoteError (List Rcd × RemoteDb) :=
  match List.lookup table rdb.tables with
  | none => .error .notFound
  | some t =>
    match firstUnknownCol t d with
    | some c => .error (.pgrst204 c)
    | none =>
      if intViolation t d || intViolation t filt then .error .p22P02
      else
        let hit := fun r => matchesWhere filt r
        let updated := (t.rows.filter hit).map (fun r => spread2 r d)
        let newRows := t.rows.map (fun r => if hit r then spread2 r d else r)
        .ok (updated, { tables := setAssoc rdb.tables table { t with rows := newRows } })

/-- Modelled from the spec: remote delete — removes the rows matching the
equality filter and returns them. -/
def remoteDelete (rdb : RemoteDb) (table : String) (filt : Rcd) :
    Except RemoteError (List Rcd × RemoteDb) :=
  match List.lookup table rdb.tables with
  | none => .error .notFound
  | some t =>
    if intViolation t filt then .error .p22P02
    else
      let hit := fun r => matchesWhere filt r
      let deleted := t.rows.filter hit
      let newRows := t.rows.filter (fun r => !hit r)
      .ok (deleted, { tables := setAssoc rdb.tables table { t with rows := newRows } })

/-- The deployments default (part_000 lines 280-282): on an insert into
`deployments` whose payload's `platform` is falsy, set `platform` to
`'netlify'` on the (copied) payload. -/
def deployData (table method : String) (d : Rcd) : Rcd :=
  if table = "deployments" && method = "insert" && !truthy (getF d "platform") then
    setField d "platform" (.vstr "netlify")
  else d

/-- Shallow embedding of `createProject` (part_000 lines 887-946).  `now`
stands for `Date.now()`, `nowIso` for `new Date().toISOString()`.  The
`rdb?`-is-`none` case models the thrown property access on a missing client,
which the outer catch turns into a fallback insert of the original
payload. -/
def createProject (rdb? : Option RemoteDb) (st : ServiceState)
    (projectData : Rcd) (now : Int) (nowIso : String) :
    Except String (List Rcd) × Option RemoteDb × ServiceState :=
  let d0 : Rcd :=
    [("name", jsOr (getF projectData "name")
        (jsOr (getF projectData "id") (.vstr ("Project " ++ toString now)))),
     ("prompt", jsOr (getF projectData "prompt") (.vstr "No prompt provided")),
     ("created_at", jsOr (getF projectData "created_at") (.vstr nowIso)),
     ("deployment_platform", jsOr (getF projectData "deployment_platform") (.vstr "netlify"))]
  let d1 :=
    if truthy (getF projectData "id") &&
        (match getF projectData "id" with
         | .vstr s => s.startsWith "project_"
         | _ => false) then
      setField (setField d0 "name" (getF projectData "id")) "id" (.vint now)
    else d0
  match rdb? with
  | some rdb =>
    match remoteInsert rdb "projects" d1 with
    | .ok (rows, rdb2) => (.ok rows, some rdb2, st)
    | .error _ =>
      let minimalData : Rcd :=
        [("name", getF d1 "name"), ("prompt", getF d1 "prompt"),
         ("created_at", getF d1 "created_at")]
      match remoteInsert rdb "projects" minimalData with
      | .ok (rows, rdb2) => (.ok rows, some rdb2, st)
      | .error _ =>
        let r := queryInMemory "projects" { method := "insert", data := minimalData } st
        (r.1, some rdb, r.2)
  | none =>
    let r := queryInMemory "projects" { method := "insert", data := projectData } st
    (r.1, none, r.2)

/-- The update-path munging of `filterConditions` and `data` for the
`projects` table (part_000 lines 484-515), applied in source order:
`project_id` in the filter becomes `name`; `project_id` in the payload
becomes `name`; a string filter id is moved to `name` when it starts with
`project_`, or parsed to an integer when numeric. -/
def updateProjectsFilt1 (table : String) (w : Rcd) : Rcd :=
  if table = "projects" && truthy (getF w "project_id") then
    removeKey (setField w "name" (getF w "project_id")) "project_id"
  else w

/-- Second filter munging step: the string-id handling, guarded by
`filterConditions.id && typeof filterConditions.id === 'string'` — a falsy
(empty) string id is left untouched.  For the non-empty integer-literal
strings of this model, `parseInt(s, 10)` agrees with `Number(s)`. -/
def updateProjectsFilt2 (table : String) (w : Rcd) : Rcd :=
  if table = "projects" then
    match getF w "id" with
    | .vstr s =>
      if s ≠ "" then
        if s.startsWith "project_" then
          removeKey (setField w "name" (.vstr s)) "id"
        else
          match strToInt? s with
          | some n => setField w "id" (.vint n)
          | none => w
      else w
    | _ => w
  else w

/-- Payload munging for a `projects` update (part_000 lines 498-501). -/
def updateProjectsData (table : String) (d : Rcd) : Rcd :=
  if table = "projects" && truthy (getF d "project_id") then
    removeKey (setField d "name" (getF d "project_id")) "project_id"
  else d

/-- Select-path `cleanedWhere` (part_000 lines 320-328): built only when the
filter is non-empty; for `projects`, `project_id` becomes `name`. -/
def cleanedWhereFor (table : String) (w : Rcd) : Rcd :=
  if !w.isEmpty && table = "projects" && truthy (getF w "project_id") then
    removeKey (setField w "name" (getF w "project_id")) "project_id"
  else w

/-- Shallow embedding of the facade `query` (part_000 lines 268-636).
`rdb?` is the Supabase client (`none` models the untaken `else` branch of
`if (this.supabase)`); `now`/`nowIso` stand for `Date.now()` and
`new Date().toISOString()`.  The `projectId` parameter is listed exactly as
in the source — the source never reads it.  Lines 284-305 and 363-405
(projects-specific insert munging inside `query`) are unreachable in the
source because a `projects` insert already returned through `createProject`
at line 276, and are omitted.  Every `throw` of a remote error inside a
method case is caught by that case's own `catch` and becomes the
corresponding fallback call; the `default:` throw is caught by the outer
catch (line 619), which re-issues the full original query object against the
in-memory store, whose own unsupported-method `throw` then escapes to the
caller. -/
def query (rdb? : Option RemoteDb) (st : ServiceState) (table : String)
    (q : QueryArg) (projectId : Option String) (now : Int) (nowIso : String) :
    Except String (List Rcd) × Option RemoteDb × ServiceState :=
  let data0 := q.data
  if table = "projects" ∧ q.method = "insert" then
    createProject rdb? st data0 now nowIso
  else
    let data1 := deployData table q.method data0
    match rdb? with
    | none =>
      let r := queryInMemory table q st
      (r.1, none, r.2)
    | some rdb =>
      if q.method = "select" then
        let cw := cleanedWhereFor table q.whereq
        match remoteSelect rdb table cw q.limit q.orderBy q.offset with
        | .ok rows => (.ok rows, some rdb, st)
        | .error _ =>
          let r := queryInMemory table
            { method := q.method, whereq := q.whereq, limit := q.limit,
              orderBy := q.orderBy, offset := q.offset } st
          (r.1, some rdb, r.2)
      else if q.method = "insert" then
        let fb :=
          let r := queryInMemory table { method := q.method, data := data1 } st
          (r.1, some rdb, r.2)
        match remoteInsert rdb table data1 with
        | .ok (rows, rdb2) => (.ok rows, some rdb2, st)
        | .error (.pgrst204 c) =>
          if c ≠ "" then
            match remoteInsert rdb table (removeKey data1 c) with
            | .ok (rows, rdb2) => (.ok rows, some rdb2, st)
            | .error _ => fb
          else fb
        | .error .p22P02 =>
          if truthy (getF data1 "id") && isStr (getF data1 "id") then
            let d2 := if !truthy (getF data1 "name") then
                setField data1 "name" (getF data1 "id")
              else data1
            let d3 := setField d2 "id" (.vint now)
            match remoteInsert rdb table d3 with
            | .ok (rows, rdb2) => (.ok rows, some rdb2, st)
            | .error _ => fb
          else fb
        | .error .notFound => fb
      else if q.method = "update" then
        let filt1 := updateProjectsFilt2 table (updateProjectsFilt1 table q.whereq)
        let dataU := updateProjectsData table data1
        let fb :=
          let r := queryInMemory table
            { method := q.method, whereq := q.whereq, data := dataU,
              limit := q.limit, orderBy := q.orderBy } st
          (r.1, some rdb, r.2)
        match remoteUpdate rdb table filt1 dataU with
        | .ok (rows, rdb2) => (.ok rows, some rdb2, st)
        | .error (.pgrst204 c) =>
          if c ≠ "" then
            match remoteUpdate rdb table filt1 (removeKey dataU c) with
            | .ok (rows, rdb2) => (.ok rows, some rdb2, st)
            | .error _ => fb
          else fb
        | .error .p22P02 =>
          (match getF filt1 "id" with
           | .vstr s =>
             if s.startsWith "project_" then
               match remoteUpdate rdb table
                   (removeKey (setField filt1 "name" (.vstr s)) "id") dataU with
               | .ok (rows, rdb2) => (.ok rows, some rdb2, st)
               | .error _ => fb
             else fb
           | _ => fb)
        | .error .notFound => fb
      else if q.method = "delete" then
        match remoteDelete rdb table q.whereq with
        | .ok (rows, rdb2) => (.ok rows, some rdb2, st)
        | .error _ =>
          let r := queryInMemory table
            { method := q.method, whereq := q.whereq, limit := q.limit,
              orderBy := q.orderBy } st
          (r.1, some rdb, r.2)
      else
        let r := queryInMemory table q st
        (r.1, some rdb, r.2)

/-- The integer list `[1, 2, ..., k]`. -/
def natsUpTo : Nat → List Int
  | 0 => []
  | k + 1 => natsUpTo k ++ [(k : Int) + 1]

/-- Iterated tenant-scoped fallback inserts of the given payloads, in order
(the operation history of the sequential-id property). -/
def insertSeq (table pid : String) (ps : List Rcd) (st : ServiceState) :
    ServiceState :=
  ps.foldl
    (fun s p =>
      (queryInMemory table { method := "insert", data := p, projectId := some pid } s).2)
    st

/-- The rows the remote backend currently stores for a table (empty when the
table is absent). -/
def remoteRows (rdb : RemoteDb) (table : String) : List Rcd :=
  match List.lookup table rdb.tables with
  | some t => t.rows
  | none => []

/-! ### Association-list and record lemmas -/

theorem lookup_cons_eq {α : Type} (k : String) (v : α) (t : List (String × α)) :
    List.lookup k ((k, v) :: t) = some v := by
  simp [List.lookup_cons]

theorem lookup_cons_ne {α : Type} (k a : String) (v : α) (t : List (String × α))
    (h : k ≠ a) : List.lookup k ((a, v) :: t) = List.lookup k t := by
  have hb : (k == a) = false := by
    simp [h]
  simp [List.lookup_cons, hb]

theorem lookup_append_case {α : Type} (k : String) (l1 l2 : List (String × α)) :
    List.lookup k (l1 ++ l2) =
      match List.lookup k l1 with
      | some v => some v
      | none => List.lookup k l2 := by
  induction l1 with
  | nil => rfl
  | cons a t ih =>
    cases a with
    | mk a1 a2 =>
      by_cases h : k = a1
      · subst h
        simp [lookup_cons_eq]
      · rw [List.cons_append, lookup_cons_ne k a1 a2 _ h, lookup_cons_ne k a1 a2 _ h, ih]

theorem lookup_map_set {α : Type} (k : String) (v : α) (l : List (String × α)) :
    List.lookup k (l.map (fun kv => if kv.1 = k then (k, v) else kv)) =
      if (List.lookup k l).isSome then some v else none := by
  induction l with
  | nil => simp
  | cons a t ih =>
    cases a with
    | mk a1 a2 =>
      by_cases h : a1 = k
      · subst h
        simp only [List.map_cons, if_pos rfl]
        simp [lookup_cons_eq]
      · simp only [List.map_cons, if_neg h]
        rw [lookup_cons_ne k a1 a2 _ (Ne.symm h), lookup_cons_ne k a1 a2 _ (Ne.symm h), ih]

theorem lookup_setAssoc_self {α : Type} (l : List (String × α)) (k : String) (v : α) :
    List.lookup k (setAssoc l k v) = some v := by
  unfold setAssoc
  by_cases h : (List.lookup k l).isSome
  · simp [h, lookup_map_set]
  · simp only [h, Bool.false_eq_true, if_false, lookup_append_case]
    cases hl : List.lookup k l with
    | some v' => simp [hl] at h
    | none => simp [lookup_cons_eq]

theorem lookup_map_set_ne {α : Type} (k k' : String) (v : α) (l : List (String × α))
    (h : k' ≠ k) :
    List.lookup k' (l.map (fun kv => if kv.1 = k then (k, v) else kv)) =
      List.lookup k' l := by
  induction l with
  | nil => rfl
  | cons a t ih =>
    cases a with
    | mk a1 a2 =>
      by_cases h1 : a1 = k
      · subst h1
        simp only [List.map_cons, ite_true, eq_self_iff_true]
        rw [lookup_cons_ne k' a1 v _ h, lookup_cons_ne k' a1 a2 _ h]
        exact ih
      · simp only [List.map_cons]
        rw [if_neg (show ¬ (a1, a2).1 = k from h1)]
        by_cases h2 : k' = a1
        · subst h2
          rw [lookup_cons_eq, lookup_cons_eq]
        · rw [lookup_cons_ne k' a1 a2 _ h2, lookup_cons_ne k' a1 a2 _ h2]
          exact ih

theorem lookup_setAssoc_ne {α : Type} (l : List (String × α)) (k k' : String) (v : α)
    (h : k' ≠ k) : List.lookup k' (setAssoc l k v) = List.lookup k' l := by
  unfold setAssoc
  by_cases hs : (List.lookup k l).isSome
  · simp only [hs, if_true]
    exact lookup_map_set_ne k k' v l h
  · simp only [hs, Bool.false_eq_true, if_false, lookup_append_case]
    cases hl : List.lookup k' l with
    | some v' => rfl
    | none => simp [lookup_cons_ne k' k v _ h]

theorem getF_setField_self (r : Rcd) (k : String) (v : Value) :
    getF (setField r k v) k = v := by
  simp [getF, setField, lookup_setAssoc_self]

theorem lookup_setField_self (r : Rcd) (k : String) (v : Value) :
    List.lookup k (setField r k v) = some v :=
  lookup_setAssoc_self r k v

theorem lookup_setField_ne (r : Rcd) (k k' : String) (v : Value) (h : k' ≠ k) :
    List.lookup k' (setField r k v) = List.lookup k' r :=
  lookup_setAssoc_ne r k k' v h

theorem lookup_removeKey_self (r : Rcd) (k : String) :
    List.lookup k (removeKey r k) = none := by
  induction r with
  | nil => rfl
  | cons a t ih =>
    cases a with
    | mk a1 a2 =>
      by_cases h : a1 = k
      · subst h
        have hb : ¬ (((a1, a2).1 != a1) = true) := by
          simp
        unfold removeKey
        rw [List.filter_cons, if_neg hb]
        exact ih
      · have hb : ((a1, a2).1 != k) = true := by
          simp [h]
        unfold removeKey
        rw [List.filter_cons, if_pos hb, lookup_cons_ne k a1 a2 _ (Ne.symm h)]
        exact ih

theorem lookup_removeKey_ne (r : Rcd) (k k' : String) (h : k' ≠ k) :
    List.lookup k' (removeKey r k) = List.lookup k' r := by
  induction r with
  | nil => rfl
  | cons a t ih =>
    cases a with
    | mk a1 a2 =>
      by_cases h1 : a1 = k
      · subst h1
        have hb : ¬ (((a1, a2).1 != a1) = true) := by
          simp
        unfold removeKey
        rw [List.filter_cons, if_neg hb, lookup_cons_ne k' a1 a2 _ h]
        exact ih
      · have hb : ((a1, a2).1 != k) = true := by
          simp [h1]
        unfold removeKey
        rw [List.filter_cons, if_pos hb]
        by_cases h2 : k' = a1
        · subst h2
          rw [lookup_cons_eq, lookup_cons_eq]
        · rw [lookup_cons_ne k' a1 a2 _ h2, lookup_cons_ne k' a1 a2 _ h2]
          exact ih

theorem lookup_map_spread (item d : Rcd) (k : String) :
    List.lookup k (item.map (fun kv =>
      match List.lookup kv.1 d with
      | some v => (kv.1, v)
      | none => kv)) =
    match List.lookup k item with
    | some b => some (match List.lookup k d with
                      | some v => v
                      | none => b)
    | none => none := by
  induction item with
  | nil => rfl
  | cons a t ih =>
    cases a with
    | mk a1 a2 =>
      by_cases h : k = a1
      · subst h
        cases hd : List.lookup k d with
        | some v => simp [List.map_cons, hd, lookup_cons_eq]
        | none => simp [List.map_cons, hd, lookup_cons_eq]
      · cases hd : List.lookup a1 d with
        | some v =>
          simp only [List.map_cons, hd]
          rw [lookup_cons_ne k a1 v _ h, lookup_cons_ne k a1 a2 _ h, ih]
        | none =>
          simp only [List.map_cons, hd]
          rw [lookup_cons_ne k a1 a2 _ h, lookup_cons_ne k a1 a2 _ h, ih]

theorem lookup_filter_unhit (item d : Rcd) (k : String)
    (hi : List.lookup k item = none) :
    List.lookup k (d.filter (fun kv => (List.lookup kv.1 item).isNone)) =
      List.lookup k d := by
  induction d with
  | nil => rfl
  | cons a t ih =>
    cases a with
    | mk a1 a2 =>
      by_cases h : k = a1
      · subst h
        have hp : ((List.lookup (k, a2).1 item).isNone = true) := by
          simp [hi]
        rw [List.filter_cons, if_pos hp, lookup_cons_eq, lookup_cons_eq]
      · cases hk : (List.lookup a1 item).isNone with
        | true =>
          have hp : ((List.lookup (a1, a2).1 item).isNone = true) := hk
          rw [List.filter_cons, if_pos hp, lookup_cons_ne k a1 a2 _ h,
            lookup_cons_ne k a1 a2 _ h]
          exact ih
        | false =>
          have hp : ¬ ((List.lookup (a1, a2).1 item).isNone = true) := by
            simp only [hk]
            exact Bool.false_ne_true
          rw [List.filter_cons, if_neg hp, lookup_cons_ne k a1 a2 _ h]
          exact ih

theorem lookup_spread2 (item d : Rcd) (k : String) :
    List.lookup k (spread2 item d) =
      match List.lookup k d with
      | some v => some v
      | none => List.lookup k item := by
  unfold spread2
  rw [lookup_append_case, lookup_map_spread]
  cases hi : List.lookup k item with
  | some b =>
    cases List.lookup k d with
    | some v => rfl
    | none => rfl
  | none =>
    rw [lookup_filter_unhit item d k hi]
    cases List.lookup k d with
    | some v => rfl
    | none => rfl

/-- Observable content of a merge: the payload\'s keys take the payload\'s
values, all other keys keep the old record\'s values. -/
theorem getF_spread2 (item d : Rcd) (k : String) :
    getF (spread2 item d) k =
      match List.lookup k d with
      | some v => v
      | none => getF item k := by
  unfold getF
  rw [lookup_spread2]
  cases List.lookup k d with
  | some v => rfl
  | none => rfl

/-! ### Dispatch lemmas for the fallback store -/

theorem queryInMemory_insert_eq (table : String) (q : QueryArg) (st : ServiceState)
    (hm : jsToLower q.method = "insert") :
    queryInMemory table q st = qimInsert table q st := by
  simp [queryInMemory, hm]

theorem queryInMemory_update_eq (table : String) (q : QueryArg) (st : ServiceState)
    (hm : jsToLower q.method = "update") :
    queryInMemory table q st = qimUpdate table q st := by
  simp [queryInMemory, hm]

theorem queryInMemory_delete_eq (table : String) (q : QueryArg) (st : ServiceState)
    (hm : jsToLower q.method = "delete") :
    queryInMemory table q st = qimDelete table q st := by
  simp [queryInMemory, hm]

theorem queryInMemory_unsupported (table : String) (q : QueryArg) (st : ServiceState)
    (hs : jsToLower q.method ≠ "select") (hi : jsToLower q.method ≠ "insert")
    (hu : jsToLower q.method ≠ "update") (hd : jsToLower q.method ≠ "delete") :
    queryInMemory table q st =
      (.error ("Unsupported query method: " ++ q.method), st) := by
  simp [queryInMemory, hs, hi, hu, hd]

/-! ### Numeric lemmas for id allocation -/

theorem le_foldl_max (ns : List Int) (n : Int) : n ≤ ns.foldl max n := by
  induction ns generalizing n with
  | nil => exact le_refl n
  | cons x xs ih => exact le_trans (le_max_left n x) (ih (max n x))

theorem mem_le_foldl_max (ns : List Int) (n m : Int) (hm : m ∈ ns) :
    m ≤ ns.foldl max n := by
  induction ns generalizing n with
  | nil => cases hm
  | cons x xs ih =>
    rcases List.mem_cons.mp hm with h | h
    · subst h
      exact le_trans (le_max_right n m) (le_foldl_max xs (max n m))
    · exact ih (max n x) h

theorem foldl_max_init_mono (ns : List Int) {a b : Int} (h : a ≤ b) :
    ns.foldl max a ≤ ns.foldl max b := by
  induction ns generalizing a b with
  | nil => exact h
  | cons x xs ih => exact ih (max_le_max h (le_refl x))

theorem numsOf?_map_vint (ns : List Int) : numsOf? (ns.map Value.vint) = some ns := by
  induction ns with
  | nil => rfl
  | cons n t ih => simp [numsOf?, toNum?, ih]

theorem numsOf?_append (l1 l2 : List Value) :
    numsOf? (l1 ++ l2) =
      match numsOf? l1, numsOf? l2 with
      | some a, some b => some (a ++ b)
      | _, _ => none := by
  induction l1 with
  | nil =>
    simp only [List.nil_append, numsOf?]
    cases numsOf? l2 with
    | some b => rfl
    | none => rfl
  | cons v vs ih =>
    cases hv : toNum? v with
    | none =>
      simp only [List.cons_append, numsOf?, hv, List.append_eq, ih]
    | some n =>
      simp only [List.cons_append, numsOf?, hv, List.append_eq, ih]
      cases numsOf? vs with
      | none => rfl
      | some a =>
        cases numsOf? l2 with
        | none => rfl
        | some b => rfl

theorem mem_of_numsOf? (l : List Value) (ns : List Int) (h : numsOf? l = some ns)
    (v : Value) (hv : v ∈ l) (m : Int) (hm : toNum? v = some m) : m ∈ ns := by
  induction l generalizing ns with
  | nil => cases hv
  | cons x xs ih =>
    cases hx : toNum? x with
    | none => simp [numsOf?, hx] at h
    | some n =>
      cases hxs : numsOf? xs with
      | none => simp [numsOf?, hx, hxs] at h
      | some ts =>
        simp only [numsOf?, hx, hxs] at h
        cases h
        rcases List.mem_cons.mp hv with h1 | h1
        · subst h1
          rw [hx] at hm
          cases hm
          exact List.mem_cons_self _ _
        · exact List.mem_cons_of_mem _ (ih ts hxs h1)

theorem natsUpTo_head (k : Nat) (hk : k ≠ 0) :
    ∃ t : List Int, natsUpTo k = 1 :: t ∧ t.foldl max 1 = (k : Int) := by
  induction k with
  | zero => exact absurd rfl hk
  | succ k ih =>
    cases Nat.eq_zero_or_pos k with
    | inl h0 =>
      subst h0
      exact ⟨[], rfl, rfl⟩
    | inr hpos =>
      obtain ⟨t, ht, hmax⟩ := ih (Nat.pos_iff_ne_zero.mp hpos)
      refine ⟨t ++ [(k : Int) + 1], ?_, ?_⟩
      · show natsUpTo k ++ [(k : Int) + 1] = 1 :: (t ++ [(k : Int) + 1])
        rw [ht]
        rfl
      · rw [List.foldl_append, hmax]
        have h1 : (k : Int) ≤ (k : Int) + 1 := by linarith
        simp [max_eq_right h1]

theorem idsMax?_natsUpTo (k : Nat) (hk : k ≠ 0) :
    idsMax? ((natsUpTo k).map Value.vint) = some (k : Int) := by
  obtain ⟨t, ht, hmax⟩ := natsUpTo_head k hk
  rw [ht]
  simp only [List.map_cons, idsMax?, numsOf?, toNum?, numsOf?_map_vint]
  rw [hmax]

/-! ### Remote-model inversion lemmas -/

theorem remoteInsert_ok_rows (rdb : RemoteDb) (table : String) (d : Rcd)
    (rows : List Rcd) (rdb2 : RemoteDb)
    (h : remoteInsert rdb table d = .ok (rows, rdb2)) : rows = [d] := by
  unfold remoteInsert at h
  cases hl : List.lookup table rdb.tables with
  | none =>
    simp only [hl] at h
    cases h
  | some t =>
    simp only [hl] at h
    cases hc : firstUnknownCol t d with
    | some c =>
      simp only [hc] at h
      cases h
    | none =>
      simp only [hc] at h
      by_cases hv : intViolation t d = true
      · rw [if_pos hv] at h
        cases h
      · rw [if_neg hv] at h
        cases h
        rfl

/-! ### Claim theorems -/


/-- Claim C1. (code bug).  Tenant isolation fails when operations are served by
the fallback store: `query` never forwards its tenant argument into
`_queryInMemory` (the fallback calls at part_000 lines 357, 403, 477, 586,
613 and 626 pass query objects without a `projectId`), so both tenants hit
the same global partition.  Concretely, with the remote backend unusable, a
record inserted into table `items` under tenant "1" is returned by a select
on `items` under tenant "2", and that leaked record (with its
fallback-assigned id 1) is the entire result of tenant B. -/
theorem c1_fallback_ignores_tenant :
    (query (some { tables := [] })
        ((query (some { tables := [] }) initState "items"
            { method := "insert", data := [("name", Value.vstr "x")] }
            (some "1") 0 "").2.2)
        "items" { method := "select" } (some "2") 0 "").1
      = .ok [[("name", Value.vstr "x"), ("id", Value.vint 1)]] := by
  rfl

/-- Claim C5. (counterexample).  Auto-assigned ids in a tenant partition are not
monotonically non-decreasing across histories with deletes: after inserting
three records (auto ids 1, 2, 3) and deleting ids 3 and 2, the next
auto-assigned id is 2 — smaller than the previously assigned 3. -/
theorem c5_counterexample :
    ((queryInMemory "things" { method := "insert", projectId := some "7" } ((queryInMemory "things" { method := "insert", projectId := some "7" } ((queryInMemory "things" { method := "insert", projectId := some "7" } initState).2)).2)).1
      = .ok [[("id", Value.vint 3)]])
    ∧ ((queryInMemory "things" { method := "insert", projectId := some "7" } ((queryInMemory "things" { method := "delete", whereq := [("id", Value.vint 2)], projectId := some "7" } ((queryInMemory "things" { method := "delete", whereq := [("id", Value.vint 3)], projectId := some "7" } ((queryInMemory "things" { method := "insert", projectId := some "7" } ((queryInMemory "things" { method := "insert", projectId := some "7" } ((queryInMemory "things" { method := "insert", projectId := some "7" } initState).2)).2)).2)).2)).2)).1
      = .ok [[("id", Value.vint 2)]]) :=
  ⟨rfl, rfl⟩

/-- Claim C6. (counterexample).  A method outside the set {select, insert,
update, delete} is not always raised to the caller: "SELECT" misses every
case-sensitive `switch` case of `query`, the thrown unsupported-method error
is caught by the outer catch, and the re-issued fallback call lowercases the
method and silently serves it — here returning the stored record with no
error and leaving the store unchanged. -/
theorem c6_counterexample :
    query (some { tables := [] }) { db := { globals := [("projects", []), ("deployments", []), ("items", [[("id", Value.vint 1)]])], tables := [] }, counters := [("projects", 1), ("deployments", 1)] } "items" { method := "SELECT" } none 0 ""
      = (.ok [[("id", Value.vint 1)]], some { tables := [] },
        { db := { globals := [("projects", []), ("deployments", []), ("items", [[("id", Value.vint 1)]])], tables := [] }, counters := [("projects", 1), ("deployments", 1)] }) := by
  rfl

/-- Claim C10. (counterexample).  A deployments insert whose payload carries a
`platform` value is not always left unchanged: the guard is the falsy check
`!data.platform` (part_000 line 280), so a present-but-falsy value such as
the empty string is overwritten with the value "netlify" — both in the
payload mutation and in the record returned through the facade. -/
theorem c10_counterexample :
    deployData "deployments" "insert" [("platform", Value.vstr "")]
      = [("platform", Value.vstr "netlify")]
    ∧ (query (some { tables := [("deployments", { cols := ["platform"], intCols := [], rows := [] })] }) initState "deployments" { method := "insert", data := [("platform", Value.vstr "")] } none 0 "").1
      = .ok [[("platform", Value.vstr "netlify")]] :=
  ⟨rfl, rfl⟩

/-- Claim C6. (amended claim).  A call whose method lowercases to something
outside {select, insert, update, delete} raises the unsupported-method error
to the caller, with remote client and fallback store untouched: the
case-sensitive switch default throws, the outer catch re-issues the call
against the fallback store, and its own unsupported-method throw escapes.
(A method outside the exact-case set whose lowercase form is in the set,
such as "SELECT", is instead silently served by the fallback store —
`c6_counterexample`.) -/
theorem c6_unsupported_method_raises (rdb? : Option RemoteDb) (st : ServiceState)
    (table : String) (q : QueryArg) (pid : Option String) (now : Int) (iso : String)
    (hs : jsToLower q.method ≠ "select") (hi : jsToLower q.method ≠ "insert")
    (hu : jsToLower q.method ≠ "update") (hd : jsToLower q.method ≠ "delete") :
    query rdb? st table q pid now iso =
      (.error ("Unsupported query method: " ++ q.method), rdb?, st) := by
  have hs2 : q.method ≠ "select" := fun h => hs (by rw [h]; rfl)
  have hi2 : q.method ≠ "insert" := fun h => hi (by rw [h]; rfl)
  have hu2 : q.method ≠ "update" := fun h => hu (by rw [h]; rfl)
  have hd2 : q.method ≠ "delete" := fun h => hd (by rw [h]; rfl)
  have hq := queryInMemory_unsupported table q st hs hi hu hd
  cases rdb? with
  | none =>
    simp only [query]
    rw [if_neg (fun hcon => hi2 hcon.2)]
    rw [hq]
  | some rdb =>
    simp only [query]
    rw [if_neg (fun hcon => hi2 hcon.2)]
    rw [if_neg hs2, if_neg hi2, if_neg hu2, if_neg hd2]
    rw [hq]

/-- Witness for `c6_unsupported_method_raises`: a concrete unsupported
method. -/
theorem c6_unsupported_method_raises_witness :
    query (some { tables := [] }) initState "items" { method := "frobnicate" }
        none 0 ""
      = (.error "Unsupported query method: frobnicate", some { tables := [] },
        initState) := by
  have h := c6_unsupported_method_raises (some { tables := [] }) initState
    "items" { method := "frobnicate" } none 0 ""
    (by decide) (by decide) (by decide) (by decide)
  exact h

/-- Claim C10. (amended claim).  For a deployments insert the facade replaces an
absent or falsy `platform` with "netlify" before executing and leaves a
truthy `platform` unchanged, so the payload submitted to the backend always
carries a truthy `platform`; when the remote backend accepts the insert, the
returned (and stored) row is exactly that payload.  (The field can still be
stripped afterwards by the unknown-column healing retry.) -/
theorem c10_deployments_platform_default (d : Rcd) :
    (truthy (getF d "platform") = false →
      deployData "deployments" "insert" d = setField d "platform" (.vstr "netlify"))
    ∧ (truthy (getF d "platform") = true → deployData "deployments" "insert" d = d)
    ∧ truthy (getF (deployData "deployments" "insert" d) "platform") = true
    ∧ (∀ (rdb rdb2 : RemoteDb) (st : ServiceState) (rows : List Rcd)
        (pid : Option String) (now : Int) (iso : String),
        remoteInsert rdb "deployments" (deployData "deployments" "insert" d)
            = .ok (rows, rdb2) →
        query (some rdb) st "deployments" { method := "insert", data := d } pid now iso
            = (.ok rows, some rdb2, st)
        ∧ rows = [deployData "deployments" "insert" d]) := by
  refine ⟨?_, ?_, ?_, ?_⟩
  · intro h
    simp [deployData, h]
  · intro h
    simp [deployData, h]
  · by_cases h : truthy (getF d "platform") = true
    · simp [deployData, h]
    · have hf : truthy (getF d "platform") = false := by
        cases hb : truthy (getF d "platform") with
        | true => exact absurd hb h
        | false => rfl
      simp [deployData, hf, getF_setField_self]
      rfl
  · intro rdb rdb2 st rows pid now iso h
    constructor
    · simp only [query]
      rw [if_neg (fun hcon => absurd hcon.1 (by decide))]
      simp only [if_true, h]
      rw [if_neg (show ¬ ("insert" : String) = "select" by decide)]
    · exact remoteInsert_ok_rows rdb "deployments" _ rows rdb2 h

/-- Witness for `c10_deployments_platform_default` at a concrete payload. -/
theorem c10_deployments_platform_default_witness :
    deployData "deployments" "insert" [("url", Value.vstr "u")]
        = setField [("url", Value.vstr "u")] "platform" (.vstr "netlify")
    ∧ query (some { tables := [("deployments", { cols := ["url", "platform"], intCols := [], rows := [] })] }) initState "deployments" { method := "insert", data := [("url", Value.vstr "u")] } none 0 ""
        = (.ok [[("url", Value.vstr "u"), ("platform", Value.vstr "netlify")]],
          some { tables := [("deployments", { cols := ["url", "platform"], intCols := [], rows := [[("url", Value.vstr "u"), ("platform", Value.vstr "netlify")]] })] }, initState) := by
  have h := c10_deployments_platform_default [("url", Value.vstr "u")]
  refine ⟨h.1 rfl, ?_⟩
  have h4 := (h.2.2.2 { tables := [("deployments", { cols := ["url", "platform"], intCols := [], rows := [] })] }
    { tables := [("deployments", { cols := ["url", "platform"], intCols := [], rows := [[("url", Value.vstr "u"), ("platform", Value.vstr "netlify")]] })] }
    initState [[("url", Value.vstr "u"), ("platform", Value.vstr "netlify")]]
    none 0 "" (by rfl)).1
  exact h4

/-! ### Partition-level lemmas for the fallback store -/

theorem fallbackRecords_tables_write (table : String) (pidq : Option String)
    (hu : useSchemaB pidq table = true) (gl : List (String × List Rcd))
    (tbs : List (String × List (String × TableData)))
    (ts : List (String × TableData)) (td2 : TableData) (cnt : List (String × Int)) :
    fallbackRecords { db := { globals := gl, tables := setAssoc tbs ("project_" ++ pidq.getD "") (setAssoc ts table td2) }, counters := cnt } table pidq = td2.records := by
  simp only [fallbackRecords, hu, if_true, tenantTable?, lookup_setAssoc_self]

theorem fallbackRecords_globals_write (table : String) (pidq : Option String)
    (hu : useSchemaB pidq table = false) (gl : List (String × List Rcd))
    (rs2 : List Rcd) (tbs : List (String × List (String × TableData)))
    (cnt : List (String × Int)) :
    fallbackRecords { db := { globals := setAssoc gl table rs2, tables := tbs }, counters := cnt } table pidq = rs2 := by
  simp only [fallbackRecords, hu, Bool.false_eq_true, if_false, lookup_setAssoc_self]

/-- Characterization of the fallback update in terms of the partition it
acts on: it returns the matched records merged with the payload, and
rewrites the partition by merging exactly the matched records. -/
theorem qimUpdate_spec (table : String) (q : QueryArg) (st : ServiceState) :
    (qimUpdate table q st).1
      = .ok (((fallbackRecords st table q.projectId).filter
          (fun item => q.whereq.isEmpty || matchesWhere q.whereq item)).map
          (fun item => spread2 item q.data))
    ∧ fallbackRecords (qimUpdate table q st).2 table q.projectId
      = (fallbackRecords st table q.projectId).map
          (fun item => if q.whereq.isEmpty || matchesWhere q.whereq item
            then spread2 item q.data else item) := by
  cases hu : useSchemaB q.projectId table with
  | true =>
    have hsn : schemaNameOf q table = "project_" ++ q.projectId.getD "" := by
      simp [schemaNameOf, hu]
    simp only [qimUpdate, hu, if_true, hsn]
    cases htt : tenantTable? st ("project_" ++ q.projectId.getD "") table with
    | none =>
      have hrec : fallbackRecords st table q.projectId = [] := by
        simp only [fallbackRecords, hu, if_true, htt]
      constructor
      · simp [hrec]
      · simp [hrec]
    | some td =>
      have hrec : fallbackRecords st table q.projectId = td.records := by
        simp only [fallbackRecords, hu, if_true, htt]
      dsimp only
      constructor
      · rw [hrec]
      · rw [fallbackRecords_tables_write table q.projectId hu st.db.globals
          st.db.tables ((List.lookup ("project_" ++ q.projectId.getD "") st.db.tables).getD [])
          _ st.counters]
        rw [hrec]
  | false =>
    simp only [qimUpdate, hu, Bool.false_eq_true, if_false]
    cases hlg : List.lookup table st.db.globals with
    | none =>
      have hrec : fallbackRecords st table q.projectId = [] := by
        simp only [fallbackRecords, hu, Bool.false_eq_true, if_false, hlg]
      constructor
      · simp [hrec]
      · simp [hrec]
    | some rs =>
      have hrec : fallbackRecords st table q.projectId = rs := by
        simp only [fallbackRecords, hu, Bool.false_eq_true, if_false, hlg]
      dsimp only
      constructor
      · rw [hrec]
      · rw [fallbackRecords_globals_write table q.projectId hu st.db.globals
          _ st.db.tables st.counters]
        rw [hrec]

/-- Characterization of the fallback delete: it returns the records hit by a
non-empty filter and removes exactly those from the partition. -/
theorem qimDelete_spec (table : String) (q : QueryArg) (st : ServiceState) :
    (qimDelete table q st).1
      = .ok ((fallbackRecords st table q.projectId).filter
          (fun item => !q.whereq.isEmpty && matchesWhere q.whereq item))
    ∧ fallbackRecords (qimDelete table q st).2 table q.projectId
      = (fallbackRecords st table q.projectId).filter
          (fun item => !(!q.whereq.isEmpty && matchesWhere q.whereq item)) := by
  cases hu : useSchemaB q.projectId table with
  | true =>
    have hsn : schemaNameOf q table = "project_" ++ q.projectId.getD "" := by
      simp [schemaNameOf, hu]
    simp only [qimDelete, hu, if_true, hsn]
    cases htt : tenantTable? st ("project_" ++ q.projectId.getD "") table with
    | none =>
      have hrec : fallbackRecords st table q.projectId = [] := by
        simp only [fallbackRecords, hu, if_true, htt]
      constructor
      · simp [hrec]
      · simp [hrec]
    | some td =>
      have hrec : fallbackRecords st table q.projectId = td.records := by
        simp only [fallbackRecords, hu, if_true, htt]
      dsimp only
      constructor
      · rw [hrec]
      · rw [fallbackRecords_tables_write table q.projectId hu st.db.globals
          st.db.tables ((List.lookup ("project_" ++ q.projectId.getD "") st.db.tables).getD [])
          _ st.counters]
        rw [hrec]
  | false =>
    simp only [qimDelete, hu, Bool.false_eq_true, if_false]
    cases hlg : List.lookup table st.db.globals with
    | none =>
      have hrec : fallbackRecords st table q.projectId = [] := by
        simp only [fallbackRecords, hu, Bool.false_eq_true, if_false, hlg]
      constructor
      · simp [hrec]
      · simp [hrec]
    | some rs =>
      have hrec : fallbackRecords st table q.projectId = rs := by
        simp only [fallbackRecords, hu, Bool.false_eq_true, if_false, hlg]
      dsimp only
      constructor
      · rw [hrec]
      · rw [fallbackRecords_globals_write table q.projectId hu st.db.globals
          _ st.db.tables st.counters]
        rw [hrec]

/-- Claim C8.  A fallback update merge-updates every matched record: the
returned list is the matched records with the payload merged in, the
partition is rewritten the same way, and the merge gives every key named in
the payload the payload value while every other key keeps its old value. -/
theorem c8_update_merge (st : ServiceState) (table : String) (q : QueryArg)
    (hm : q.method = "update") (ht : table ≠ "tables") :
    (queryInMemory table q st).1
      = .ok (((fallbackRecords st table q.projectId).filter
          (fun item => q.whereq.isEmpty || matchesWhere q.whereq item)).map
          (fun item => spread2 item q.data))
    ∧ fallbackRecords (queryInMemory table q st).2 table q.projectId
      = (fallbackRecords st table q.projectId).map
          (fun item => if q.whereq.isEmpty || matchesWhere q.whereq item
            then spread2 item q.data else item)
    ∧ ∀ (item : Rcd) (k : String),
        getF (spread2 item q.data) k
          = match List.lookup k q.data with
            | some v => v
            | none => getF item k := by
  rw [queryInMemory_update_eq table q st (by rw [hm]; rfl)]
  have h := qimUpdate_spec table q st
  exact ⟨h.1, h.2, fun item k => getF_spread2 item q.data k⟩

/-- Witness for `c8_update_merge`: the update of the spec example — where
`{id: 1}`, data `{name: "b"}` — returns `[{id: 1, name: "b"}]` against a
partition holding `{id: 1, name: "a"}`. -/
theorem c8_update_merge_witness :
    (queryInMemory "tt" { method := "update", whereq := [("id", Value.vint 1)], data := [("name", Value.vstr "b")], projectId := some "9" } { db := { globals := [("projects", []), ("deployments", [])], tables := [("project_9", [("tt", { columns := [], records := [[("id", Value.vint 1), ("name", Value.vstr "a")]] })])] }, counters := [("projects", 1), ("deployments", 1)] }).1
      = .ok [[("id", Value.vint 1), ("name", Value.vstr "b")]] := by
  have h := (c8_update_merge
    { db := { globals := [("projects", []), ("deployments", [])], tables := [("project_9", [("tt", { columns := [], records := [[("id", Value.vint 1), ("name", Value.vstr "a")]] })])] }, counters := [("projects", 1), ("deployments", 1)] }
    "tt"
    { method := "update", whereq := [("id", Value.vint 1)], data := [("name", Value.vstr "b")], projectId := some "9" }
    rfl (by decide)).1
  rw [h]
  rfl

/-- Claim C9.  In the fallback store an empty filter is treated oppositely by
delete and update: a delete with empty `where` removes nothing and returns
the empty sequence, while an update with empty `where` merges its payload
into every record of the partition and returns all of them. -/
theorem c9_empty_filter_delete_vs_update (st : ServiceState) (table : String)
    (q : QueryArg) (hw : q.whereq = []) (ht : table ≠ "tables") :
    (q.method = "delete" →
      (queryInMemory table q st).1 = .ok []
      ∧ fallbackRecords (queryInMemory table q st).2 table q.projectId
          = fallbackRecords st table q.projectId)
    ∧ (q.method = "update" →
      (queryInMemory table q st).1
        = .ok ((fallbackRecords st table q.projectId).map
            (fun item => spread2 item q.data))
      ∧ fallbackRecords (queryInMemory table q st).2 table q.projectId
          = (fallbackRecords st table q.projectId).map
              (fun item => spread2 item q.data)) := by
  constructor
  · intro hm
    rw [queryInMemory_delete_eq table q st (by rw [hm]; rfl)]
    have h := qimDelete_spec table q st
    constructor
    · rw [h.1]
      simp [hw]
    · rw [h.2]
      simp [hw]
  · intro hm
    rw [queryInMemory_update_eq table q st (by rw [hm]; rfl)]
    have h := qimUpdate_spec table q st
    constructor
    · rw [h.1]
      simp [hw]
    · rw [h.2]
      simp [hw]

/-- Witness for `c9_empty_filter_delete_vs_update` at a concrete partition
with one record. -/
theorem c9_empty_filter_delete_vs_update_witness :
    ((queryInMemory "tt" { method := "delete", projectId := some "9" } { db := { globals := [("projects", []), ("deployments", [])], tables := [("project_9", [("tt", { columns := [], records := [[("id", Value.vint 1)]] })])] }, counters := [("projects", 1), ("deployments", 1)] }).1 = .ok []
      ∧ fallbackRecords (queryInMemory "tt" { method := "delete", projectId := some "9" } { db := { globals := [("projects", []), ("deployments", [])], tables := [("project_9", [("tt", { columns := [], records := [[("id", Value.vint 1)]] })])] }, counters := [("projects", 1), ("deployments", 1)] }).2 "tt" (some "9")
          = fallbackRecords { db := { globals := [("projects", []), ("deployments", [])], tables := [("project_9", [("tt", { columns := [], records := [[("id", Value.vint 1)]] })])] }, counters := [("projects", 1), ("deployments", 1)] } "tt" (some "9"))
    ∧ ((queryInMemory "tt" { method := "update", data := [("w", Value.vint 5)], projectId := some "9" } { db := { globals := [("projects", []), ("deployments", [])], tables := [("project_9", [("tt", { columns := [], records := [[("id", Value.vint 1)]] })])] }, counters := [("projects", 1), ("deployments", 1)] }).1
        = .ok [[("id", Value.vint 1), ("w", Value.vint 5)]]) := by
  refine ⟨?_, ?_⟩
  · exact (c9_empty_filter_delete_vs_update
      { db := { globals := [("projects", []), ("deployments", [])], tables := [("project_9", [("tt", { columns := [], records := [[("id", Value.vint 1)]] })])] }, counters := [("projects", 1), ("deployments", 1)] }
      "tt" { method := "delete", projectId := some "9" } rfl (by decide)).1 rfl
  · have h := ((c9_empty_filter_delete_vs_update
      { db := { globals := [("projects", []), ("deployments", [])], tables := [("project_9", [("tt", { columns := [], records := [[("id", Value.vint 1)]] })])] }, counters := [("projects", 1), ("deployments", 1)] }
      "tt" { method := "update", data := [("w", Value.vint 5)], projectId := some "9" } rfl (by decide)).2 rfl).1
    rw [h]
    rfl

/-! ### The tenant-branch insert step -/

theorem natsUpTo_length (k : Nat) : (natsUpTo k).length = k := by
  induction k with
  | zero => rfl
  | succ k ih => simp [natsUpTo, ih]

/-- One tenant-scoped fallback insert without a truthy id: it returns the
payload extended with the auto-allocated id and appends that record to the
partition. -/
theorem qimInsert_tenant_step (table pid : String) (d : Rcd) (st : ServiceState)
    (hp : pid ≠ "") (h1 : table ≠ "projects") (h2 : table ≠ "deployments")
    (hid : truthy (getF d "id") = false) :
    (qimInsert table { method := "insert", data := d, projectId := some pid } st).1
      = .ok [setField d "id" (autoId (fallbackRecords st table (some pid)))]
    ∧ fallbackRecords
        (qimInsert table { method := "insert", data := d, projectId := some pid } st).2
        table (some pid)
      = fallbackRecords st table (some pid)
        ++ [setField d "id" (autoId (fallbackRecords st table (some pid)))] := by
  have hu : useSchemaB (some pid) table = true := by
    simp [useSchemaB, hp, h1, h2]
  have hrec : ((List.lookup table ((List.lookup ("project_" ++ pid) st.db.tables).getD [])).getD {}).records
      = fallbackRecords st table (some pid) := by
    cases hlt : List.lookup ("project_" ++ pid) st.db.tables with
    | none => simp [fallbackRecords, hu, tenantTable?, hlt]
    | some ts0 =>
      cases hlt2 : List.lookup table ts0 with
      | none => simp [fallbackRecords, hu, tenantTable?, hlt, hlt2, TableData.records]
      | some td0 => simp [fallbackRecords, hu, tenantTable?, hlt, hlt2]
  simp only [qimInsert, schemaNameOf, hu, if_true, hid, Bool.false_eq_true, if_false,
    Option.getD_some]
  constructor
  · rw [hrec]
  · have hw := fallbackRecords_tables_write table (some pid) hu st.db.globals
      st.db.tables ((List.lookup ("project_" ++ pid) st.db.tables).getD [])
      { columns := ((List.lookup table ((List.lookup ("project_" ++ pid) st.db.tables).getD [])).getD {}).columns,
        records := ((List.lookup table ((List.lookup ("project_" ++ pid) st.db.tables).getD [])).getD {}).records
          ++ [setField d "id" (autoId ((List.lookup table ((List.lookup ("project_" ++ pid) st.db.tables).getD [])).getD {}).records)] }
      st.counters
    simp only [Option.getD_some] at hw
    rw [hw, hrec]

/-- Invariant propagation: starting from a partition whose ids are
`[1, …, k]`, inserting `ps` id-free payloads leaves ids `[1, …, k + |ps|]`. -/
theorem insertSeq_ids (table pid : String) (hp : pid ≠ "") (h1 : table ≠ "projects")
    (h2 : table ≠ "deployments") :
    ∀ (ps : List Rcd) (st : ServiceState) (k : Nat),
      (∀ p ∈ ps, List.lookup "id" p = none) →
      (fallbackRecords st table (some pid)).map (fun r => getF r "id")
        = (natsUpTo k).map (fun n => Value.vint n) →
      (fallbackRecords (insertSeq table pid ps st) table (some pid)).map
          (fun r => getF r "id")
        = (natsUpTo (k + ps.length)).map (fun n => Value.vint n) := by
  intro ps
  induction ps with
  | nil =>
    intro st k _ hinv
    simpa [insertSeq] using hinv
  | cons p ps ih =>
    intro st k hids hinv
    have hidp : truthy (getF p "id") = false := by
      have h := hids p (List.mem_cons_self p ps)
      simp [getF, h, truthy]
    have hauto : autoId (fallbackRecords st table (some pid)) = .vint ((k : Int) + 1) := by
      cases k with
      | zero =>
        have hnil : fallbackRecords st table (some pid) = [] := by
          have hlen := congrArg List.length hinv
          simp [natsUpTo] at hlen
          exact hlen
        rw [hnil]
        rfl
      | succ k2 =>
        have hlen : (fallbackRecords st table (some pid)).length > 0 := by
          have hlen2 := congrArg List.length hinv
          simp [natsUpTo_length] at hlen2
          omega
        unfold autoId
        rw [if_pos hlen, hinv, idsMax?_natsUpTo (k2 + 1) (Nat.succ_ne_zero k2)]
    have hstep := qimInsert_tenant_step table pid p st hp h1 h2 hidp
    have hdisp : queryInMemory table
        { method := "insert", data := p, projectId := some pid } st
        = qimInsert table { method := "insert", data := p, projectId := some pid } st :=
      queryInMemory_insert_eq table _ st rfl
    have hseq : insertSeq table pid (p :: ps) st
        = insertSeq table pid ps
            (qimInsert table { method := "insert", data := p, projectId := some pid } st).2 := by
      simp [insertSeq, hdisp]
    rw [hseq]
    have hnew : (fallbackRecords
        (qimInsert table { method := "insert", data := p, projectId := some pid } st).2
        table (some pid)).map (fun r => getF r "id")
        = (natsUpTo (k + 1)).map (fun n => Value.vint n) := by
      rw [hstep.2, List.map_append, hinv, hauto]
      simp [natsUpTo, getF_setField_self]
    have harith : k + (p :: ps).length = (k + 1) + ps.length := by
      simp [List.length_cons]
      omega
    rw [harith]
    exact ih _ (k + 1) (fun r hr => hids r (List.mem_cons_of_mem p hr)) hnew

/-- Claim C3.  Sequential id allocation in a tenant partition of the fallback
store: (i) a sequence of id-free inserts into an initially empty partition
yields ids 1, 2, 3, … in insertion order; (ii) each id-free insert is
assigned id 1 when the partition is empty and 1 + the maximum existing id
otherwise. -/
theorem c3_sequential_auto_ids :
    (∀ (ps : List Rcd) (pid table : String) (st : ServiceState),
      pid ≠ "" → table ≠ "projects" → table ≠ "deployments" →
      (∀ p ∈ ps, List.lookup "id" p = none) →
      fallbackRecords st table (some pid) = [] →
      (fallbackRecords (insertSeq table pid ps st) table (some pid)).map
          (fun r => getF r "id")
        = (natsUpTo ps.length).map (fun n => Value.vint n))
    ∧ (∀ (st : ServiceState) (pid table : String) (d : Rcd),
      pid ≠ "" → table ≠ "projects" → table ≠ "deployments" →
      List.lookup "id" d = none →
      (fallbackRecords st table (some pid) = [] →
        (queryInMemory table { method := "insert", data := d, projectId := some pid } st).1
          = .ok [setField d "id" (.vint 1)])
      ∧ (∀ m : Int,
          idsMax? ((fallbackRecords st table (some pid)).map (fun r => getF r "id"))
            = some m →
          (queryInMemory table { method := "insert", data := d, projectId := some pid } st).1
            = .ok [setField d "id" (.vint (m + 1))])) := by
  constructor
  · intro ps pid table st hp h1 h2 hids hempty
    have h := insertSeq_ids table pid hp h1 h2 ps st 0 hids (by simp [hempty, natsUpTo])
    simpa using h
  · intro st pid table d hp h1 h2 hd
    have hid : truthy (getF d "id") = false := by
      simp [getF, hd, truthy]
    have hdisp : queryInMemory table
        { method := "insert", data := d, projectId := some pid } st
        = qimInsert table { method := "insert", data := d, projectId := some pid } st :=
      queryInMemory_insert_eq table _ st rfl
    have hstep := qimInsert_tenant_step table pid d st hp h1 h2 hid
    constructor
    · intro hempty
      rw [hdisp, hstep.1, hempty]
      rfl
    · intro m hmax
      have hlen : (fallbackRecords st table (some pid)).length > 0 := by
        cases hfr : fallbackRecords st table (some pid) with
        | nil =>
          rw [hfr] at hmax
          simp [idsMax?, numsOf?] at hmax
        | cons a t => simp
      rw [hdisp, hstep.1]
      unfold autoId
      rw [if_pos hlen, hmax]

/-- Witness for `c3_sequential_auto_ids`: two id-free inserts into a fresh
tenant partition produce ids 1 and 2, and a third insert against the
resulting partition (max id 2) is assigned id 3. -/
theorem c3_sequential_auto_ids_witness :
    (fallbackRecords (insertSeq "tt" "9" [[("v", Value.vstr "a")], [("v", Value.vstr "b")]] initState) "tt" (some "9")).map (fun r => getF r "id")
      = [Value.vint 1, Value.vint 2]
    ∧ (queryInMemory "tt" { method := "insert", data := [("v", Value.vstr "c")], projectId := some "9" } (insertSeq "tt" "9" [[("v", Value.vstr "a")], [("v", Value.vstr "b")]] initState)).1
      = .ok [setField [("v", Value.vstr "c")] "id" (.vint 3)] := by
  constructor
  · have h := c3_sequential_auto_ids.1 [[("v", Value.vstr "a")], [("v", Value.vstr "b")]]
      "9" "tt" initState (by decide) (by decide) (by decide)
      (by intro p hp; fin_cases hp <;> rfl) (by rfl)
    rw [h]
    rfl
  · have h := (c3_sequential_auto_ids.2
      (insertSeq "tt" "9" [[("v", Value.vstr "a")], [("v", Value.vstr "b")]] initState)
      "9" "tt" [("v", Value.vstr "c")] (by decide) (by decide) (by decide) (by rfl)).2
      2 (by rfl)
    exact h

/-! ### Freshness of auto-allocated ids -/

theorem numsOf?_total (l : List Value) (h : ∀ v ∈ l, (toNum? v).isSome = true) :
    ∃ ns : List Int, numsOf? l = some ns := by
  induction l with
  | nil => exact ⟨[], rfl⟩
  | cons v vs ih =>
    obtain ⟨ns, hns⟩ := ih (fun w hw => h w (List.mem_cons_of_mem v hw))
    have hv := h v (List.mem_cons_self v vs)
    cases hvn : toNum? v with
    | none =>
      rw [hvn] at hv
      simp at hv
    | some n => exact ⟨n :: ns, by simp [numsOf?, hvn, hns]⟩

/-- The id allocated by `autoId` strictly dominates the numeric id of every
record already in the partition. -/
theorem autoId_fresh (recs : List Rcd) (r : Rcd) (n : Int)
    (hr : r ∈ recs)
    (hall : ∀ q ∈ recs, (toNum? (getF q "id")).isSome = true)
    (hn : toNum? (getF r "id") = some n) :
    ∃ m : Int, autoId recs = .vint m ∧ n < m := by
  cases recs with
  | nil => cases hr
  | cons r0 rest =>
    have hv0 := hall r0 (List.mem_cons_self r0 rest)
    cases hvn : toNum? (getF r0 "id") with
    | none =>
      rw [hvn] at hv0
      simp at hv0
    | some n0 =>
      have hrest : ∀ v ∈ rest.map (fun q => getF q "id"), (toNum? v).isSome = true := by
        intro v hv
        obtain ⟨q, hq, hqe⟩ := List.mem_map.mp hv
        rw [← hqe]
        exact hall q (List.mem_cons_of_mem r0 hq)
      obtain ⟨nsr, hnsr⟩ := numsOf?_total _ hrest
      have hnums : numsOf? ((r0 :: rest).map (fun q => getF q "id"))
          = some (n0 :: nsr) := by
        simp [numsOf?, hvn, hnsr]
      have hmem : n ∈ n0 :: nsr := by
        refine mem_of_numsOf? _ _ hnums (getF r "id") ?_ n hn
        exact List.mem_map_of_mem _ hr
      have hle : n ≤ nsr.foldl max n0 := by
        rcases List.mem_cons.mp hmem with h1 | h1
        · subst h1
          exact le_foldl_max nsr n
        · exact mem_le_foldl_max nsr n0 n h1
      refine ⟨nsr.foldl max n0 + 1, ?_, by omega⟩
      unfold autoId
      rw [if_pos (by simp)]
      unfold idsMax?
      rw [hnums]

/-- Claim C5. (amended claim).  Within a tenant partition of the fallback
store: (i) an auto-allocated id is strictly greater than every live numeric
record id, hence distinct from all of them at allocation time; (ii) over any
delete-free continuation — the allocated record plus any further inserted
records — a later allocation strictly exceeds an earlier one, so the
auto-assigned sequence is increasing while only inserts occur; (iii) the
fallback insert operation allocates exactly `autoId` of the current
partition and appends the record.  (Deletes can shrink the maximum live id,
after which a later auto id may repeat or drop below an earlier one —
`c5_counterexample`.) -/
theorem c5_auto_ids_fresh_and_insert_monotone :
    (∀ (recs : List Rcd) (r : Rcd) (n : Int),
        r ∈ recs →
        (∀ q ∈ recs, (toNum? (getF q "id")).isSome = true) →
        toNum? (getF r "id") = some n →
        ∃ m : Int, autoId recs = .vint m ∧ n < m)
    ∧ (∀ (recs extra : List Rcd) (d : Rcd) (a b : Int),
        (∀ q ∈ recs ++ [setField d "id" (.vint a)] ++ extra,
          (toNum? (getF q "id")).isSome = true) →
        autoId recs = .vint a →
        autoId (recs ++ [setField d "id" (.vint a)] ++ extra) = .vint b →
        a < b)
    ∧ (∀ (st : ServiceState) (pid table : String) (d : Rcd),
        pid ≠ "" → table ≠ "projects" → table ≠ "deployments" →
        truthy (getF d "id") = false →
        (queryInMemory table { method := "insert", data := d, projectId := some pid } st).1
          = .ok [setField d "id" (autoId (fallbackRecords st table (some pid)))]
        ∧ fallbackRecords
            (queryInMemory table { method := "insert", data := d, projectId := some pid } st).2
            table (some pid)
          = fallbackRecords st table (some pid)
            ++ [setField d "id" (autoId (fallbackRecords st table (some pid)))]) := by
  refine ⟨autoId_fresh, ?_, ?_⟩
  · intro recs extra d a b hall ha hb
    have hmid : setField d "id" (.vint a) ∈ recs ++ [setField d "id" (.vint a)] ++ extra := by
      refine List.mem_append.mpr (Or.inl ?_)
      refine List.mem_append.mpr (Or.inr ?_)
      exact List.mem_singleton.mpr rfl
    have hnum : toNum? (getF (setField d "id" (.vint a)) "id") = some a := by
      rw [getF_setField_self]
      rfl
    obtain ⟨m, hm, hlt⟩ := autoId_fresh _ _ a hmid hall hnum
    rw [hb] at hm
    cases hm
    exact hlt
  · intro st pid table d hp h1 h2 hid
    have hdisp : queryInMemory table
        { method := "insert", data := d, projectId := some pid } st
        = qimInsert table { method := "insert", data := d, projectId := some pid } st :=
      queryInMemory_insert_eq table _ st rfl
    have hstep := qimInsert_tenant_step table pid d st hp h1 h2 hid
    constructor
    · rw [hdisp]
      exact hstep.1
    · rw [hdisp]
      exact hstep.2

/-- Witness for `c5_auto_ids_fresh_and_insert_monotone` at concrete
partitions. -/
theorem c5_auto_ids_fresh_and_insert_monotone_witness :
    (∃ m : Int, autoId [[("id", Value.vint 1)]] = .vint m ∧ 1 < m)
    ∧ (2 : Int) < 3
    ∧ (queryInMemory "tt" { method := "insert", data := [], projectId := some "9" } initState).1
        = .ok [setField [] "id" (autoId (fallbackRecords initState "tt" (some "9")))] := by
  refine ⟨?_, ?_, ?_⟩
  · exact c5_auto_ids_fresh_and_insert_monotone.1 [[("id", Value.vint 1)]]
      [("id", Value.vint 1)] 1 (by simp) (by decide) rfl
  · exact c5_auto_ids_fresh_and_insert_monotone.2.1 [[("id", Value.vint 1)]] [] [] 2 3
      (by decide) rfl rfl
  · exact (c5_auto_ids_fresh_and_insert_monotone.2.2 initState "9" "tt" []
      (by decide) (by decide) (by decide) rfl).1

/-! ### The unknown-column healing retry -/

theorem remoteUpdate_ok_rows (rdb : RemoteDb) (table : String) (filt d : Rcd)
    (rows : List Rcd) (rdb2 : RemoteDb)
    (h : remoteUpdate rdb table filt d = .ok (rows, rdb2)) :
    rows = ((remoteRows rdb table).filter (fun r => matchesWhere filt r)).map
      (fun r => spread2 r d) := by
  unfold remoteUpdate at h
  cases hl : List.lookup table rdb.tables with
  | none =>
    simp only [hl] at h
    cases h
  | some t =>
    simp only [hl] at h
    cases hc : firstUnknownCol t d with
    | some c =>
      simp only [hc] at h
      cases h
    | none =>
      simp only [hc] at h
      by_cases hv : (intViolation t d || intViolation t filt) = true
      · rw [if_pos hv] at h
        cases h
      · rw [if_neg hv] at h
        cases h
        simp [remoteRows, hl]

/-- Claim C4 (counterexample).  A projects insert is not healed with the
identical payload minus the offending column: `query` routes it through
`createProject`, which on a `PGRST204` rejection retries with a rebuilt
minimal payload of name, prompt and created_at instead.  Concretely, with a
remote `projects` table lacking the `prompt` column, the built payload is
rejected naming `prompt`; the identical payload minus `prompt` would be
accepted and stored without it (second conjunct), but the code retries with
the minimal payload still carrying `prompt`, which fails too — so the
remote is left unchanged and the fallback record returned to the caller
still contains `prompt` (third conjunct). -/
theorem c4_counterexample :
    remoteInsert { tables := [("projects", { cols := ["name", "created_at", "deployment_platform"], intCols := [], rows := [] })] } "projects" [("name", Value.vstr "n"), ("prompt", Value.vstr "No prompt provided"), ("created_at", Value.vstr "iso"), ("deployment_platform", Value.vstr "netlify")]
      = .error (.pgrst204 "prompt")
    ∧ remoteInsert { tables := [("projects", { cols := ["name", "created_at", "deployment_platform"], intCols := [], rows := [] })] } "projects" (removeKey [("name", Value.vstr "n"), ("prompt", Value.vstr "No prompt provided"), ("created_at", Value.vstr "iso"), ("deployment_platform", Value.vstr "netlify")] "prompt")
      = .ok ([[("name", Value.vstr "n"), ("created_at", Value.vstr "iso"), ("deployment_platform", Value.vstr "netlify")]],
        { tables := [("projects", { cols := ["name", "created_at", "deployment_platform"], intCols := [], rows := [[("name", Value.vstr "n"), ("created_at", Value.vstr "iso"), ("deployment_platform", Value.vstr "netlify")]] })] })
    ∧ query (some { tables := [("projects", { cols := ["name", "created_at", "deployment_platform"], intCols := [], rows := [] })] }) initState "projects" { method := "insert", data := [("name", Value.vstr "n")] } none 0 "iso"
      = (.ok [[("name", Value.vstr "n"), ("prompt", Value.vstr "No prompt provided"), ("created_at", Value.vstr "iso"), ("id", Value.vint 1)]],
        some { tables := [("projects", { cols := ["name", "created_at", "deployment_platform"], intCols := [], rows := [] })] },
        { db := { globals := [("projects", [[("name", Value.vstr "n"), ("prompt", Value.vstr "No prompt provided"), ("created_at", Value.vstr "iso"), ("id", Value.vint 1)]]), ("deployments", [])], tables := [] }, counters := [("projects", 2), ("deployments", 1)] }) :=
  ⟨rfl, rfl, rfl⟩

/-- Claim C4 (amended claim).  For every insert into a table other than
`projects` and for every update (on any table), phrased against the payload
the facade actually submits to the remote backend (after the deployments
platform default, and for updates the projects filter/payload munging):
when the remote rejects it with a `PGRST204` error naming a non-empty
column `c`, the operation is retried exactly once with the identical
submitted payload minus `c` — no other field changed — a successful retry
returns and stores the record without `c`, and a failed retry escalates to
the fallback store with the submitted payload.  (A projects insert is
instead rebuilt by `createProject` — `c4_counterexample`.) -/
theorem c4_unknown_column_heal :
    (∀ (rdb : RemoteDb) (st : ServiceState) (table : String) (d : Rcd) (c : String)
        (pid : Option String) (now : Int) (iso : String),
      table ≠ "projects" → c ≠ "" →
      remoteInsert rdb table (deployData table "insert" d) = .error (.pgrst204 c) →
      List.lookup c (removeKey (deployData table "insert" d) c) = none
      ∧ (∀ k, k ≠ c → List.lookup k (removeKey (deployData table "insert" d) c)
          = List.lookup k (deployData table "insert" d))
      ∧ (∀ (rows : List Rcd) (rdb2 : RemoteDb),
          remoteInsert rdb table (removeKey (deployData table "insert" d) c)
              = .ok (rows, rdb2) →
          query (some rdb) st table { method := "insert", data := d } pid now iso
            = (.ok rows, some rdb2, st)
          ∧ rows = [removeKey (deployData table "insert" d) c])
      ∧ (∀ e2 : RemoteError,
          remoteInsert rdb table (removeKey (deployData table "insert" d) c)
              = .error e2 →
          query (some rdb) st table { method := "insert", data := d } pid now iso
            = ((queryInMemory table
                { method := "insert", data := deployData table "insert" d } st).1,
              some rdb,
              (queryInMemory table
                { method := "insert", data := deployData table "insert" d } st).2)))
    ∧ (∀ (rdb : RemoteDb) (st : ServiceState) (table : String) (w d : Rcd) (c : String)
        (pid : Option String) (now : Int) (iso : String),
      c ≠ "" →
      remoteUpdate rdb table (updateProjectsFilt2 table (updateProjectsFilt1 table w))
          (updateProjectsData table d) = .error (.pgrst204 c) →
      List.lookup c (removeKey (updateProjectsData table d) c) = none
      ∧ (∀ k, k ≠ c → List.lookup k (removeKey (updateProjectsData table d) c)
          = List.lookup k (updateProjectsData table d))
      ∧ (∀ (rows : List Rcd) (rdb2 : RemoteDb),
          remoteUpdate rdb table (updateProjectsFilt2 table (updateProjectsFilt1 table w))
              (removeKey (updateProjectsData table d) c) = .ok (rows, rdb2) →
          query (some rdb) st table { method := "update", whereq := w, data := d } pid now iso
            = (.ok rows, some rdb2, st)
          ∧ ((∀ r ∈ remoteRows rdb table, List.lookup c r = none) →
              ∀ r2 ∈ rows, List.lookup c r2 = none))
      ∧ (∀ e2 : RemoteError,
          remoteUpdate rdb table (updateProjectsFilt2 table (updateProjectsFilt1 table w))
              (removeKey (updateProjectsData table d) c) = .error e2 →
          query (some rdb) st table { method := "update", whereq := w, data := d } pid now iso
            = ((queryInMemory table
                { method := "update", whereq := w, data := updateProjectsData table d } st).1,
              some rdb,
              (queryInMemory table
                { method := "update", whereq := w, data := updateProjectsData table d } st).2))) := by
  constructor
  · intro rdb st table d c pid now iso ht1 hc herr
    refine ⟨lookup_removeKey_self _ c, fun k hk => lookup_removeKey_ne _ c k hk, ?_, ?_⟩
    · intro rows rdb2 hok
      constructor
      · simp only [query]
        rw [if_neg (fun hcon => ht1 hcon.1)]
        simp only [herr, if_true]
        rw [if_pos hc]
        simp only [hok]
        rw [if_neg (show ¬ ("insert" : String) = "select" by decide)]
      · exact remoteInsert_ok_rows rdb table _ rows rdb2 hok
    · intro e2 herr2
      simp only [query]
      rw [if_neg (fun hcon => ht1 hcon.1)]
      simp only [herr, if_true]
      rw [if_pos hc]
      simp only [herr2]
      rw [if_neg (show ¬ ("insert" : String) = "select" by decide)]
  · intro rdb st table w d c pid now iso hc herr
    have hdep : deployData table "update" d = d := by
      simp [deployData]
    refine ⟨lookup_removeKey_self _ c, fun k hk => lookup_removeKey_ne _ c k hk, ?_, ?_⟩
    · intro rows rdb2 hok
      constructor
      · simp only [query]
        rw [if_neg (fun hcon => absurd hcon.2 (by decide))]
        rw [if_neg (show ¬ ("update" : String) = "select" by decide),
          if_neg (show ¬ ("update" : String) = "insert" by decide)]
        simp only [hdep, herr, if_true]
        rw [if_pos hc]
        simp only [hok]
      · intro hclean r2 hr2
        have hrows := remoteUpdate_ok_rows rdb table _ _ rows rdb2 hok
        rw [hrows] at hr2
        obtain ⟨r, hrmem, hre⟩ := List.mem_map.mp hr2
        have hrin : r ∈ remoteRows rdb table := (List.mem_filter.mp hrmem).1
        rw [← hre, lookup_spread2, lookup_removeKey_self]
        exact hclean r hrin
    · intro e2 herr2
      simp only [query]
      rw [if_neg (fun hcon => absurd hcon.2 (by decide))]
      rw [if_neg (show ¬ ("update" : String) = "select" by decide),
        if_neg (show ¬ ("update" : String) = "insert" by decide)]
      simp only [hdep, herr, if_true]
      rw [if_pos hc]
      simp only [herr2]

/-- Witness for `c4_unknown_column_heal`: a remote `items` table with a
single `name` column.  An insert carrying the unknown column `junk`
succeeds on the healed retry with the record stored without `junk`; an
insert with two unknown columns fails the retry too and is served by the
fallback store; an update carrying `junk` succeeds on the healed retry and
the updated row excludes `junk`. -/
theorem c4_unknown_column_heal_witness :
    (query (some { tables := [("items", { cols := ["name"], intCols := [], rows := [] })] }) initState "items" { method := "insert", data := [("name", Value.vstr "x"), ("junk", Value.vstr "y")] } none 0 ""
        = (.ok [[("name", Value.vstr "x")]],
          some { tables := [("items", { cols := ["name"], intCols := [], rows := [[("name", Value.vstr "x")]] })] },
          initState))
    ∧ (query (some { tables := [("items", { cols := ["name"], intCols := [], rows := [] })] }) initState "items" { method := "insert", data := [("a", Value.vstr "1"), ("b", Value.vstr "2")] } none 0 ""
        = ((queryInMemory "items" { method := "insert", data := [("a", Value.vstr "1"), ("b", Value.vstr "2")] } initState).1,
          some { tables := [("items", { cols := ["name"], intCols := [], rows := [] })] },
          (queryInMemory "items" { method := "insert", data := [("a", Value.vstr "1"), ("b", Value.vstr "2")] } initState).2))
    ∧ (query (some { tables := [("items", { cols := ["name"], intCols := [], rows := [[("name", Value.vstr "z")]] })] }) initState "items" { method := "update", whereq := [("name", Value.vstr "z")], data := [("name", Value.vstr "w"), ("junk", Value.vstr "y")] } none 0 ""
        = (.ok [[("name", Value.vstr "w")]],
          some { tables := [("items", { cols := ["name"], intCols := [], rows := [[("name", Value.vstr "w")]] })] },
          initState)) := by
  refine ⟨?_, ?_, ?_⟩
  · exact ((c4_unknown_column_heal.1
      { tables := [("items", { cols := ["name"], intCols := [], rows := [] })] }
      initState "items" [("name", Value.vstr "x"), ("junk", Value.vstr "y")] "junk"
      none 0 "" (by decide) (by decide) rfl).2.2.1
      [[("name", Value.vstr "x")]]
      { tables := [("items", { cols := ["name"], intCols := [], rows := [[("name", Value.vstr "x")]] })] }
      rfl).1
  · exact (c4_unknown_column_heal.1
      { tables := [("items", { cols := ["name"], intCols := [], rows := [] })] }
      initState "items" [("a", Value.vstr "1"), ("b", Value.vstr "2")] "a"
      none 0 "" (by decide) (by decide) rfl).2.2.2 (.pgrst204 "b") rfl
  · exact ((c4_unknown_column_heal.2
      { tables := [("items", { cols := ["name"], intCols := [], rows := [[("name", Value.vstr "z")]] })] }
      initState "items" [("name", Value.vstr "z")]
      [("name", Value.vstr "w"), ("junk", Value.vstr "y")] "junk"
      none 0 "" (by decide) rfl).2.2.1
      [[("name", Value.vstr "w")]]
      { tables := [("items", { cols := ["name"], intCols := [], rows := [[("name", Value.vstr "w")]] })] }
      rfl).1

end Backlify
